import Mathlib

/-!
# go-pocket-sdk: a client for the Pocket HTTP API

A shallow embedding of `pocket.go` and a verification of its specification.

Conventions of the embedding.

* A Go `string` is a sequence of bytes.  It is represented by a Lean `String`
  whose characters stand for the bytes one by one (the byte `b` is the character
  with code `b`), so an ASCII literal denotes itself and concatenation, cutting
  at a separator byte and percent-decoding act on it exactly as in Go.
* A Go result `(v, err)` is a pair whose second component is `Option GoError`
  (`none` is the `nil` error), so the value returned next to an error is visible.
* A pointer that may be `nil` is an `Option`.  The receiver `c *Client` itself is
  taken to be non-nil.
* The network is a parameter: a `Transport` gives the outcome of
  `(*http.Client).Do` for a request.  Every function that may reach it returns a
  `Run`, the list of requests handed to the transport together with the returned
  values, or no returned values when the call panics.
-/

namespace GoPocketSdk

/-! ## Errors -/

/-- Go `error` values that occur in the package, by the way they are built. -/
inductive GoError where
  /-- The value of `errors.New(msg)` and of `fmt.Errorf(msg)` for a verb-free `msg`. -/
  | New (msg : String)
  /-- The value of `errors.WithMessage(cause, msg)` for a non-nil `cause`. -/
  | WithMessage (cause : GoError) (msg : String)
  /-- The value `url.EscapeError(s)` of package `net/url`. -/
  | EscapeError (s : String)
  /-- An error made outside the package (transport failure, body read failure). -/
  | External (msg : String)
deriving DecidableEq

/-- The method `Error()`; `quote` is `strconv.Quote`, used by `url.EscapeError`. -/
def GoError.Error (quote : String → String) : GoError → String
  | .New msg => msg
  | .WithMessage cause msg => msg ++ ": " ++ cause.Error quote
  | .EscapeError s => "invalid URL escape " ++ quote s
  | .External msg => msg

/-! ## Library functions used by the package -/

/-- The body of `fmt.Sprintf` for a format whose only verb is `%s` and string
operands: each `%s` is replaced by the next operand, byte for byte; a `%s` with
no operand left prints `%!s(MISSING)`. -/
def fmt.sprintfAux : List Char → List String → List Char
  | [], _ => []
  | c :: rest, args =>
    if c = '%' then
      match rest, args with
      | 's' :: rest', a :: args' => a.data ++ fmt.sprintfAux rest' args'
      | 's' :: rest', [] => "%!s(MISSING)".data ++ fmt.sprintfAux rest' []
      | rest', args' => c :: fmt.sprintfAux rest' args'
    else c :: fmt.sprintfAux rest args

/-- The function `fmt.Sprintf(format, args...)` on string operands. -/
def fmt.Sprintf (format : String) (args : List String) : String :=
  ⟨fmt.sprintfAux format.data args⟩

/-- The function `strings.Join(elems, sep)`: nothing for no element, the element
itself for one, and otherwise the first element followed by `sep` and the next
element, for each further element in order. -/
def strings.Join : List String → String → String
  | [], _ => ""
  | [a], _ => a
  | a :: rest, sep => rest.foldl (fun acc s => acc ++ sep ++ s) a

/-- The function `strings.Index(s, sep) >= 0` for a one-byte `sep`, that is
`strings.Contains(s, sep)`. -/
def strings.Contains (s : String) (sep : Char) : Bool :=
  s.data.contains sep

/-- The split of `strings.Cut` on a byte list, for a one-byte separator. -/
def strings.cutBytes (sep : Char) : List Char → List Char × List Char × Bool
  | [] => ([], [], false)
  | c :: cs =>
    if c = sep then ([], cs, true)
    else
      let r := strings.cutBytes sep cs
      (c :: r.1, r.2.1, r.2.2)

/-- The function `strings.Cut(s, sep)` for a one-byte `sep`: the text before the
first `sep`, the text after it, and whether `sep` occurs; `(s, "", false)` when it
does not. -/
def strings.Cut (s : String) (sep : Char) : String × String × Bool :=
  let r := strings.cutBytes sep s.data
  (⟨r.1⟩, ⟨r.2.1⟩, r.2.2)

/-! ### net/url -/

/-- The function `ishex` of `net/url`. -/
def url.ishex (c : Char) : Bool :=
  ('0'.toNat ≤ c.toNat && c.toNat ≤ '9'.toNat) ||
  ('a'.toNat ≤ c.toNat && c.toNat ≤ 'f'.toNat) ||
  ('A'.toNat ≤ c.toNat && c.toNat ≤ 'F'.toNat)

/-- The function `unhex` of `net/url`. -/
def url.unhex (c : Char) : Nat :=
  if '0'.toNat ≤ c.toNat ∧ c.toNat ≤ '9'.toNat then c.toNat - '0'.toNat
  else if 'a'.toNat ≤ c.toNat ∧ c.toNat ≤ 'f'.toNat then c.toNat - 'a'.toNat + 10
  else if 'A'.toNat ≤ c.toNat ∧ c.toNat ≤ 'F'.toNat then c.toNat - 'A'.toNat + 10
  else 0

/-- The first loop of `unescape`: the ill-formed escape it stops at, if any.  At a
`%` that is not followed by two hex digits it reports `s[i:]` cut to three bytes. -/
def url.badEscape : List Char → Option (List Char)
  | [] => none
  | c :: rest =>
    if c = '%' then
      match rest with
      | a :: b :: rest' =>
        if url.ishex a && url.ishex b then url.badEscape rest' else some [c, a, b]
      | short => some (c :: short)
    else url.badEscape rest

/-- The second loop of `unescape` in query-component mode: `%XY` becomes the byte
with hex digits `XY`, `+` becomes a space, every other byte is copied.  The case
of a `%` with fewer than two bytes after it is excluded by the first loop. -/
def url.decodeBytes : List Char → List Char
  | [] => []
  | c :: rest =>
    if c = '%' then
      match rest with
      | a :: b :: rest' =>
        Char.ofNat (((url.unhex a <<< 4) % 256) ||| url.unhex b) :: url.decodeBytes rest'
      | _ => []
    else if c = '+' then ' ' :: url.decodeBytes rest
    else c :: url.decodeBytes rest

/-- The function `url.QueryUnescape(s)`, that is `unescape(s, encodeQueryComponent)`. -/
def url.QueryUnescape (s : String) : String × Option GoError :=
  match url.badEscape s.data with
  | some bad => ("", some (.EscapeError ⟨bad⟩))
  | none =>
    if !s.data.contains '%' && !s.data.contains '+' then (s, none)
    else (⟨url.decodeBytes s.data⟩, none)

/-- The type `url.Values`, a map from a key to its list of values; a key that is
not in the map has no values. -/
structure url.Values where
  m : String → List String

/-- The value `url.Values{}`. -/
def url.Values.empty : url.Values := ⟨fun _ => []⟩

/-- The method `Values.Get`: the first value of the key, `""` if it has none. -/
def url.Values.Get (v : url.Values) (key : String) : String :=
  match v.m key with
  | [] => ""
  | x :: _ => x

/-- The statement `m[key] = append(m[key], value)`. -/
def url.Values.append (v : url.Values) (key value : String) : url.Values :=
  ⟨fun k => if k = key then v.m k ++ [value] else v.m k⟩

/-- The loop of `parseQuery(m, query)` of `net/url` (Go 1.17 and later, where a
semicolon in a pair is an error), run for at most `fuel` iterations; `none` when
the fuel ends before the query is consumed. -/
def url.parseQuery : Nat → url.Values → Option GoError → String →
    Option (url.Values × Option GoError)
  | 0, m, err, query => if query = "" then some (m, err) else none
  | fuel + 1, m, err, query =>
    if query = "" then some (m, err)
    else
      let cut := strings.Cut query '&'
      let key := cut.1
      let query := cut.2.1
      if strings.Contains key ';' then
        url.parseQuery fuel m (some (.New "invalid semicolon separator in query")) query
      else if key = "" then url.parseQuery fuel m err query
      else
        let kv := strings.Cut key '='
        match url.QueryUnescape kv.1 with
        | (_, some err1) => url.parseQuery fuel m (if err = none then some err1 else err) query
        | (key, none) =>
          match url.QueryUnescape kv.2.1 with
          | (_, some err1) =>
            url.parseQuery fuel m (if err = none then some err1 else err) query
          | (value, none) => url.parseQuery fuel (m.append key value) err query

/-- The function `url.ParseQuery(query)`: the loop started on an empty map with
more fuel than the query has bytes (every iteration consumes at least one). -/
def url.ParseQuery (query : String) : Option (url.Values × Option GoError) :=
  url.parseQuery (query.length + 1) url.Values.empty none query

/-! ### net/http -/

/-- The predicate `validHeaderFieldByte` of `net/textproto`: the token bytes of
RFC 7230. -/
def textproto.validHeaderFieldByte (c : Char) : Bool :=
  c.isAlphanum ||
  [33, 35, 36, 37, 38, 39, 42, 43, 45, 46, 94, 95, 96, 124, 126].contains c.toNat

/-- The case change of `canonicalMIMEHeaderKey`: upper case at the start and after
a hyphen, lower case elsewhere. -/
def textproto.canonicalBytes : Bool → List Char → List Char
  | _, [] => []
  | upper, c :: cs =>
    (if upper then c.toUpper else c.toLower) :: textproto.canonicalBytes (c = '-') cs

/-- The function `textproto.CanonicalMIMEHeaderKey`: a key with a byte that is
not a token byte is returned unchanged. -/
def textproto.CanonicalMIMEHeaderKey (s : String) : String :=
  if s.data.all textproto.validHeaderFieldByte then ⟨textproto.canonicalBytes true s.data⟩
  else s

/-- The type `http.Header`, a map from canonical keys to value lists. -/
structure http.Header where
  m : String → List String

/-- The method `Header.Get`: the first value under the canonical form of the key. -/
def http.Header.Get (h : http.Header) (key : String) : String :=
  match h.m (textproto.CanonicalMIMEHeaderKey key) with
  | [] => ""
  | x :: _ => x

/-- The method `Header.Set`: the canonical form of the key gets the single value. -/
def http.Header.Set (h : http.Header) (key value : String) : http.Header :=
  ⟨fun k => if k = textproto.CanonicalMIMEHeaderKey key then [value] else h.m k⟩

/-- A non-nil `context.Context`; what cancelling it does is up to the transport. -/
structure Context where
  ident : Nat
deriving DecidableEq

/-! ## Constants and types of `pocket.go` -/

/-- A `time.Duration`, in nanoseconds. -/
abbrev Duration := Int

/-- The constant `time.Second`. -/
def time.Second : Duration := 1000000000

def host : String := "https://getpocket.com/v3"

def authorizeUrl : String :=
  "https://getpocket.com/auth/authorize?request_token=%s&redirect_uri=%s"

def endpointRequestToken : String := "/oauth/request"

def endpointAuthorize : String := "/oauth/authorize"

def xErrorHeader : String := "X-Error"

def defaultTimeout : Duration := 5 * time.Second

structure requestTokenRequest where
  ConsumerKey : String
  RedirectURI : String
deriving DecidableEq

structure authorizeRequest where
  ConsumerKey : String
  Code : String
deriving DecidableEq

structure AuthorizeResponse where
  AccessToken : String
  Username : String
deriving DecidableEq

structure addRequest where
  URL : String
  Title : String
  Tags : String
  AccessToken : String
  ConsumerKey : String
deriving DecidableEq

structure AddInput where
  URL : String
  Title : String
  Tags : List String
  AccessToken : String
deriving DecidableEq

def AddInput.validate (i : AddInput) : Option GoError :=
  if i.URL = "" then some (.New "required URL values is empty")
  else if i.AccessToken = "" then some (.New "empty access token")
  else none

def AddInput.generate (i : AddInput) (consumerKey : String) : addRequest :=
  { URL := i.URL
    Title := i.Title
    Tags := strings.Join i.Tags ","
    AccessToken := i.AccessToken
    ConsumerKey := consumerKey }

/-- The struct `http.Client`; only `Timeout` is ever set, the other fields keep
their zero value. -/
structure http.Client where
  Timeout : Duration
deriving DecidableEq

structure Client where
  client : Option http.Client
  consumerKey : String
deriving DecidableEq

def NewClient (consumerKey : String) : Option Client × Option GoError :=
  if consumerKey = "" then (none, some (.New "consumer k\tey is empty"))
  else (some { client := some { Timeout := defaultTimeout }, consumerKey := consumerKey }, none)

def Client.GetAuthorizationURL (_c : Client) (requestToken redirectURL : String) :
    String × Option GoError :=
  if requestToken = "" ∨ redirectURL = "" then ("", some (.New "empty params"))
  else (fmt.Sprintf authorizeUrl [requestToken, redirectURL], none)

/-- The values the package passes to `doHTTP` as `body interface{}`. -/
inductive Body where
  | requestToken (r : requestTokenRequest)
  | authorize (r : authorizeRequest)
  | add (r : addRequest)
deriving DecidableEq

/-- The call `json.Marshal(body)`.  Every field of the three request structs is
a string, so the encoding cannot fail; the JSON document is represented by the
struct it encodes. -/
def json.Marshal (body : Body) : Except GoError Body :=
  .ok body

/-- An outgoing `*http.Request`: its context, method, URL, header and body. -/
structure http.Request where
  ctx : Context
  Method : String
  URL : String
  Header : http.Header
  Body : Body

/-- An incoming `*http.Response`; `Body` is the outcome of
`ioutil.ReadAll(resp.Body)`, the whole body or a read error. -/
structure http.Response where
  StatusCode : Int
  Header : http.Header
  Body : Except GoError String

def http.MethodPost : String := "POST"

def http.StatusOK : Int := 200

/-- The function `http.NewRequestWithContext`, for a valid method and a URL that
parses, which the constants of this package are: it fails on a nil context. -/
def http.NewRequestWithContext (ctx : Option Context) (method url : String) (body : Body) :
    Except GoError http.Request :=
  match ctx with
  | none => .error (.New "net/http: nil Context")
  | some cx => .ok { ctx := cx, Method := method, URL := url, Header := ⟨fun _ => []⟩, Body := body }

/-- The network as the package sees it: the outcome of `(*http.Client).Do(req)`
on a non-nil client, an error or a non-nil response. -/
abbrev Transport := http.Client → http.Request → Except GoError http.Response

/-- The run of a function that may use the network: the requests handed to the
transport, in order, and the returned values; `ret` is `none` when the function
does not return (a nil dereference, or a loop that outlives its fuel). -/
structure Run (α : Type) where
  sent : List http.Request
  ret : Option α

def Client.doHTTP (rt : Transport) (c : Client) (ctx : Option Context) (endpoint : String)
    (body : Body) : Run (url.Values × Option GoError) :=
  match json.Marshal body with
  | .error err => ⟨[], some (url.Values.empty, some (.WithMessage err "failed to marshal input body"))⟩
  | .ok b =>
    match http.NewRequestWithContext ctx http.MethodPost (host ++ endpoint) b with
    | .error err =>
      ⟨[], some (url.Values.empty, some (.WithMessage err "failed to create new request"))⟩
    | .ok req0 =>
      let req : http.Request :=
        { req0 with Header := req0.Header.Set "Content-Type" "application-json; charset=UTF8" }
      match c.client with
      | none => ⟨[], none⟩
      | some hc =>
        match rt hc req with
        | .error err =>
          ⟨[req], some (url.Values.empty, some (.WithMessage err "failed to send http request"))⟩
        | .ok resp =>
          if resp.StatusCode ≠ http.StatusOK then
            ⟨[req], some (url.Values.empty,
              some (.New (fmt.Sprintf "API Error: %s" [resp.Header.Get xErrorHeader])))⟩
          else
            match resp.Body with
            | .error err =>
              ⟨[req], some (url.Values.empty,
                some (.WithMessage err "failed to read request body"))⟩
            | .ok respB =>
              match url.ParseQuery respB with
              | none => ⟨[req], none⟩
              | some (_, some err) =>
                ⟨[req], some (url.Values.empty,
                  some (.WithMessage err "failed to parse response body"))⟩
              | some (values, none) => ⟨[req], some (values, none)⟩

def Client.GetRequestToken (rt : Transport) (c : Client) (ctx : Option Context)
    (redirectUrl : String) : Run (String × Option GoError) :=
  let inp : requestTokenRequest := { ConsumerKey := c.consumerKey, RedirectURI := redirectUrl }
  let r := c.doHTTP rt ctx endpointRequestToken (.requestToken inp)
  match r.ret with
  | none => ⟨r.sent, none⟩
  | some (_, some err) => ⟨r.sent, some ("", some err)⟩
  | some (values, none) =>
    if values.Get "code" = "" then
      ⟨r.sent, some ("", some (.New "empty request token in API response"))⟩
    else ⟨r.sent, some (values.Get "code", none)⟩

def Client.Authorize (rt : Transport) (c : Client) (ctx : Option Context)
    (requestToken : String) : Run (Option AuthorizeResponse × Option GoError) :=
  if requestToken = "" then ⟨[], some (none, some (.New "empty request token"))⟩
  else
    let inp : authorizeRequest := { Code := requestToken, ConsumerKey := c.consumerKey }
    let r := c.doHTTP rt ctx endpointAuthorize (.authorize inp)
    match r.ret with
    | none => ⟨r.sent, none⟩
    | some (_, some err) => ⟨r.sent, some (none, some err)⟩
    | some (values, none) =>
      let accessToken := values.Get "access_token"
      let username := values.Get "username"
      if accessToken = "" then
        ⟨r.sent, some (none, some (.New "empty access token in API response"))⟩
      else ⟨r.sent, some (some { AccessToken := accessToken, Username := username }, none)⟩

/-- The tags joined as the specification words it: in the caller's order,
separated by single commas. -/
def joinedByComma : List String → String
  | [] => ""
  | [t] => t
  | t :: rest => t ++ "," ++ joinedByComma rest

/-- The request the specification gives the shared helper to send: a POST to
the fixed host followed by the endpoint, carrying the body, with the one header
`Content-Type: application-json; charset=UTF8`. -/
def outboundRequest (cx : Context) (endpoint : String) (body : Body) : http.Request :=
  { ctx := cx
    Method := "POST"
    URL := "https://getpocket.com/v3" ++ endpoint
    Header := ⟨fun k => if k = "Content-Type" then ["application-json; charset=UTF8"] else []⟩
    Body := body }

/-- A transport that answers every request with the same response. -/
def answering (resp : http.Response) : Transport :=
  fun _ _ => .ok resp

/-- A response with the given status, `X-Error` header values and body. -/
def response (status : Int) (xError : List String) (body : String) : http.Response :=
  { StatusCode := status
    Header := ⟨fun k => if k = "X-Error" then xError else []⟩
    Body := .ok body }

/-- A client as `NewClient` builds it, for a given consumer key. -/
def clientOf (consumerKey : String) : Client :=
  { client := some { Timeout := defaultTimeout }, consumerKey := consumerKey }

/-- A value that travels through a URL-encoded body unchanged: it has none of the
bytes `&` and `;` (which end or spoil a pair) and `%` and `+` (which are decoded). -/
def plain (s : String) : Prop :=
  ∀ c ∈ s.data, c ≠ '&' ∧ c ≠ ';' ∧ c ≠ '%' ∧ c ≠ '+'

instance plainDecidable (s : String) : Decidable (plain s) := by
  unfold plain
  infer_instance

/-! ## Verification -/

/-! ### Formatting and joining -/

theorem sprintf_authorizeUrl (t r : String) :
    fmt.Sprintf authorizeUrl [t, r] =
      "https://getpocket.com/auth/authorize?request_token=" ++ t ++ "&redirect_uri=" ++ r := by
  apply String.ext
  simp [fmt.Sprintf, authorizeUrl, fmt.sprintfAux]

theorem sprintf_apiError (h : String) :
    fmt.Sprintf "API Error: %s" [h] = "API Error: " ++ h := by
  apply String.ext
  simp [fmt.Sprintf, fmt.sprintfAux]

theorem foldl_sep_append (sep : String) (rest : List String) (a b : String) :
    rest.foldl (fun acc s => acc ++ sep ++ s) (a ++ b) =
      a ++ rest.foldl (fun acc s => acc ++ sep ++ s) b := by
  induction rest generalizing b with
  | nil => rfl
  | cons x xs ih =>
    simp only [List.foldl_cons]
    rw [String.append_assoc, String.append_assoc, ← String.append_assoc b, ih]

theorem Join_comma (tags : List String) : strings.Join tags "," = joinedByComma tags := by
  induction tags with
  | nil => rfl
  | cons t rest ih =>
    cases rest with
    | nil => rfl
    | cons u rest' =>
      have hu : strings.Join (u :: rest') "," =
          rest'.foldl (fun acc s => acc ++ "," ++ s) u := by
        cases rest' <;> rfl
      rw [hu] at ih
      show (u :: rest').foldl (fun acc s => acc ++ "," ++ s) t = t ++ "," ++ joinedByComma (u :: rest')
      rw [List.foldl_cons, foldl_sep_append, ih]

theorem append_sep_inj {c : Char} {a a' b b' : List Char} (ha : c ∉ a) (ha' : c ∉ a')
    (h : a ++ c :: b = a' ++ c :: b') : a = a' ∧ b = b' := by
  induction a generalizing a' with
  | nil =>
    cases a' with
    | nil => simpa using h
    | cons y ys =>
      simp only [List.nil_append, List.cons_append, List.cons.injEq] at h
      exact absurd (h.1 ▸ List.mem_cons_self _ _) ha'
  | cons x xs ih =>
    cases a' with
    | nil =>
      simp only [List.nil_append, List.cons_append, List.cons.injEq] at h
      exact absurd (h.1 ▸ List.mem_cons_self _ _) ha
    | cons y ys =>
      simp only [List.cons_append, List.cons.injEq] at h
      have hx : c ∉ xs := fun hm => ha (List.mem_cons_of_mem _ hm)
      have hy : c ∉ ys := fun hm => ha' (List.mem_cons_of_mem _ hm)
      obtain ⟨h1, h2⟩ := ih hx hy h.2
      exact ⟨by rw [h.1, h1], h2⟩

theorem GetAuthorizationURL_eq (c : Client) (requestToken redirectURL : String) :
    c.GetAuthorizationURL requestToken redirectURL =
      if requestToken = "" ∨ redirectURL = "" then ("", some (GoError.New "empty params"))
      else ("https://getpocket.com/auth/authorize?request_token=" ++ requestToken ++
              "&redirect_uri=" ++ redirectURL, none) := by
  unfold Client.GetAuthorizationURL
  rw [sprintf_authorizeUrl]

/-! ### The pure operations -/

/-- Claim C1.  `GetAuthorizationURL` returns the empty string with an error when
either argument is empty, and otherwise, with no error, the fixed template with
the two arguments put in byte for byte, whatever bytes they hold.  The three
cases of the package's test are instances. -/
theorem GetAuthorizationURL_spec :
    (∀ (c : Client) (requestToken redirectURL : String),
      c.GetAuthorizationURL requestToken redirectURL =
        if requestToken = "" ∨ redirectURL = "" then ("", some (GoError.New "empty params"))
        else ("https://getpocket.com/auth/authorize?request_token=" ++ requestToken ++
                "&redirect_uri=" ++ redirectURL, none)) ∧
    Client.GetAuthorizationURL ⟨none, ""⟩ "qwe-rty-123" "http://localhost:80/" =
      ("https://getpocket.com/auth/authorize?request_token=qwe-rty-123&redirect_uri=http://localhost:80/",
        none) ∧
    (Client.GetAuthorizationURL ⟨none, ""⟩ "" "http://localhost:80/").2 ≠ none ∧
    (Client.GetAuthorizationURL ⟨none, ""⟩ "qwe-rty-123" "").2 ≠ none ∧
    Client.GetAuthorizationURL ⟨none, ""⟩ "a%b&c" "x?y#z&w" =
      ("https://getpocket.com/auth/authorize?request_token=a%b&c&redirect_uri=x?y#z&w", none) := by
  exact ⟨GetAuthorizationURL_eq, by decide, by decide, by decide, by decide⟩

/-- Claim C2.  `NewClient` returns no client and an error exactly when the
consumer key is empty; for a non-empty key it returns, with no error, a client
that holds that key and an HTTP client whose timeout is 5 seconds. -/
theorem NewClient_spec (consumerKey : String) :
    (((NewClient consumerKey).1 = none ∧ (NewClient consumerKey).2 ≠ none) ↔ consumerKey = "") ∧
    (consumerKey ≠ "" →
      ∃ c hc, NewClient consumerKey = (some c, none) ∧ c.consumerKey = consumerKey ∧
        c.client = some hc ∧ hc.Timeout = defaultTimeout ∧ hc.Timeout = 5 * 1000000000) := by
  unfold NewClient
  by_cases h : consumerKey = ""
  · simp [h]
  · simp [h, defaultTimeout, time.Second]

/-- A use of `NewClient_spec` at the key `"key"`. -/
theorem NewClient_spec_witness :
    ((NewClient "key").1 = none ∧ (NewClient "key").2 ≠ none ↔ "key" = "") ∧
    ∃ c hc, NewClient "key" = (some c, none) ∧ c.consumerKey = "key" ∧
      c.client = some hc ∧ hc.Timeout = defaultTimeout ∧ hc.Timeout = 5 * 1000000000 :=
  ⟨(NewClient_spec "key").1, (NewClient_spec "key").2 (by decide)⟩

/-- Claim C3.  `AddInput.validate`, a function of the input alone (it is given
no transport, so it sends nothing), returns an error exactly when the URL or the
access token is empty; the title and the tags have no influence, and an empty
URL is always rejected. -/
theorem validate_spec (i : AddInput) :
    (i.validate ≠ none ↔ (i.URL = "" ∨ i.AccessToken = "")) ∧
    (∀ (title : String) (tags : List String),
      AddInput.validate { i with Title := title, Tags := tags } = i.validate) ∧
    (i.URL = "" → i.validate = some (GoError.New "required URL values is empty")) := by
  unfold AddInput.validate
  refine ⟨?_, fun _ _ => rfl, fun h => by simp [h]⟩
  by_cases h1 : i.URL = "" <;> by_cases h2 : i.AccessToken = "" <;> simp [h1, h2]

/-- A use of `validate_spec` at an input with a title and tags and no URL. -/
theorem validate_spec_witness :
    AddInput.validate ⟨"", "title", ["a", "b"], "token"⟩ =
      some (GoError.New "required URL values is empty") :=
  (validate_spec ⟨"", "title", ["a", "b"], "token"⟩).2.2 rfl

/-- Claim C4.  The record `i.generate(k)` carries the URL, title and access token
of `i` and the key `k` unchanged, and its tags are the tags of `i`, in order,
joined by single commas: nothing for no tag, the tag itself for one tag, and
`"a,b,c"` for the tags `a`, `b`, `c`. -/
theorem generate_spec :
    (∀ (i : AddInput) (k : String),
      (i.generate k).URL = i.URL ∧ (i.generate k).Title = i.Title ∧
      (i.generate k).AccessToken = i.AccessToken ∧ (i.generate k).ConsumerKey = k ∧
      (i.generate k).Tags = joinedByComma i.Tags) ∧
    (∀ (u t a k : String), (AddInput.generate ⟨u, t, [], a⟩ k).Tags = "") ∧
    (∀ (u t a k tag : String), (AddInput.generate ⟨u, t, [tag], a⟩ k).Tags = tag) ∧
    (∀ (u t a k : String), (AddInput.generate ⟨u, t, ["a", "b", "c"], a⟩ k).Tags = "a,b,c") := by
  refine ⟨fun i k => ⟨rfl, rfl, rfl, rfl, Join_comma i.Tags⟩, fun _ _ _ _ => rfl,
    fun _ _ _ _ _ => rfl, fun _ _ _ _ => ?_⟩
  show strings.Join ["a", "b", "c"] "," = "a,b,c"
  decide

/-- Claim C10.  For request tokens without the byte `&`, the authorization URL
determines its arguments: if two calls with non-empty arguments return the same
URL, the tokens are equal and the redirect URLs are equal. -/
theorem GetAuthorizationURL_injective (c1 c2 : Client) (t1 t2 r1 r2 : String)
    (ht1 : t1 ≠ "") (ht2 : t2 ≠ "") (hr1 : r1 ≠ "") (hr2 : r2 ≠ "")
    (ha1 : '&' ∉ t1.data) (ha2 : '&' ∉ t2.data)
    (h : (c1.GetAuthorizationURL t1 r1).1 = (c2.GetAuthorizationURL t2 r2).1) :
    t1 = t2 ∧ r1 = r2 := by
  rw [GetAuthorizationURL_eq, GetAuthorizationURL_eq] at h
  simp only [ht1, ht2, hr1, hr2, or_self, if_false] at h
  have hd := congrArg String.data h
  simp only [String.data_append, List.append_assoc] at hd
  have hd2 := List.append_cancel_left hd
  simp only [List.cons_append, List.nil_append] at hd2
  obtain ⟨e1, e2⟩ := append_sep_inj ha1 ha2 hd2
  simp only [List.cons.injEq, true_and] at e2
  exact ⟨String.ext e1, String.ext e2⟩

/-- A use of `GetAuthorizationURL_injective`: the URL built from the token
`qwe-rty-123` and a redirect URL that itself holds `&` and `%` is not the URL of
any other plain token with that redirect URL. -/
theorem GetAuthorizationURL_injective_witness :
    (Client.GetAuthorizationURL ⟨none, ""⟩ "qwe-rty-123" "http://h/?a=1&b=%20").1 =
        (Client.GetAuthorizationURL (clientOf "key") "qwe-rty-123" "http://h/?a=1&b=%20").1 ∧
      ("qwe-rty-123" : String) = "qwe-rty-123" ∧
      ("http://h/?a=1&b=%20" : String) = "http://h/?a=1&b=%20" :=
  ⟨by decide,
    GetAuthorizationURL_injective ⟨none, ""⟩ (clientOf "key") "qwe-rty-123" "qwe-rty-123"
      "http://h/?a=1&b=%20" "http://h/?a=1&b=%20" (by decide) (by decide) (by decide) (by decide)
      (by decide) (by decide) (by decide)⟩


/-! ### Parsing a URL-encoded body -/

theorem cutBytes_length_le (sep : Char) (l : List Char) :
    (strings.cutBytes sep l).2.1.length ≤ l.length := by
  induction l with
  | nil => simp [strings.cutBytes]
  | cons c cs ih =>
    unfold strings.cutBytes
    split
    · simp
    · simp only [List.length_cons]
      omega

theorem cutBytes_length_lt (sep : Char) (l : List Char) (h : l ≠ []) :
    (strings.cutBytes sep l).2.1.length < l.length := by
  cases l with
  | nil => exact absurd rfl h
  | cons c cs =>
    unfold strings.cutBytes
    split
    · simp
    · have := cutBytes_length_le sep cs
      simp only [List.length_cons]
      omega

theorem cutBytes_append (sep : Char) (a b : List Char) (h : sep ∉ a) :
    strings.cutBytes sep (a ++ sep :: b) = (a, b, true) := by
  induction a with
  | nil => simp [strings.cutBytes]
  | cons x xs ih =>
    have hx : x ≠ sep := fun e => h (e ▸ List.mem_cons_self _ _)
    have hxs : sep ∉ xs := fun hm => h (List.mem_cons_of_mem _ hm)
    simp [strings.cutBytes, hx, ih hxs]

theorem cutBytes_absent (sep : Char) (a : List Char) (h : sep ∉ a) :
    strings.cutBytes sep a = (a, [], false) := by
  induction a with
  | nil => simp [strings.cutBytes]
  | cons x xs ih =>
    have hx : x ≠ sep := fun e => h (e ▸ List.mem_cons_self _ _)
    have hxs : sep ∉ xs := fun hm => h (List.mem_cons_of_mem _ hm)
    simp [strings.cutBytes, hx, ih hxs]

theorem badEscape_plain (l : List Char) (h : '%' ∉ l) : url.badEscape l = none := by
  induction l with
  | nil => rfl
  | cons x xs ih =>
    have hx : x ≠ '%' := fun e => h (e ▸ List.mem_cons_self _ _)
    have hxs : '%' ∉ xs := fun hm => h (List.mem_cons_of_mem _ hm)
    unfold url.badEscape
    simp only [hx, if_false]
    exact ih hxs

theorem QueryUnescape_plain (l : List Char) (h1 : '%' ∉ l) (h2 : '+' ∉ l) :
    url.QueryUnescape ⟨l⟩ = (⟨l⟩, none) := by
  simp [url.QueryUnescape, badEscape_plain l h1, h1, h2]

theorem parseQuery_empty (fuel : Nat) (m : url.Values) (err : Option GoError) :
    url.parseQuery fuel m err "" = some (m, err) := by
  cases fuel <;> simp [url.parseQuery]

theorem parseQuery_total (fuel : Nat) (m : url.Values) (err : Option GoError) (query : String)
    (h : query.length < fuel) : ∃ r, url.parseQuery fuel m err query = some r := by
  induction fuel generalizing m err query with
  | zero => exact absurd h (Nat.not_lt_zero _)
  | succ n ih =>
    unfold url.parseQuery
    by_cases hq : query = ""
    · simp [hq]
    · have hne : query.data ≠ [] := fun e => hq (String.ext e)
      have hlt : (strings.Cut query '&').2.1.length < n := by
        have := cutBytes_length_lt '&' query.data hne
        simp only [strings.Cut, String.length] at *
        omega
      simp only [hq, if_false]
      split
      · exact ih _ _ _ hlt
      · split
        · exact ih _ _ _ hlt
        · split
          · exact ih _ _ _ hlt
          · split
            · exact ih _ _ _ hlt
            · exact ih _ _ _ hlt

theorem ParseQuery_total (query : String) : ∃ r, url.ParseQuery query = some r :=
  parseQuery_total _ _ _ _ (Nat.lt_succ_self _)


theorem parseQuery_pair_then (fuel : Nat) (m : url.Values) (err : Option GoError)
    (k v rest : List Char)
    (hkc : ∀ c ∈ k, c ≠ '&' ∧ c ≠ ';' ∧ c ≠ '%' ∧ c ≠ '+' ∧ c ≠ '=')
    (hvc : ∀ c ∈ v, c ≠ '&' ∧ c ≠ ';' ∧ c ≠ '%' ∧ c ≠ '+') :
    url.parseQuery (fuel + 1) m err ⟨k ++ '=' :: (v ++ '&' :: rest)⟩ =
      url.parseQuery fuel (m.append ⟨k⟩ ⟨v⟩) err ⟨rest⟩ := by
  have hamp : '&' ∉ k ++ '=' :: v := by
    intro hm
    rcases List.mem_append.1 hm with h | h
    · exact (hkc _ h).1 rfl
    · rcases List.mem_cons.1 h with h | h
      · exact absurd h (by decide)
      · exact (hvc _ h).1 rfl
  have hsemi : ';' ∉ k ++ '=' :: v := by
    intro hm
    rcases List.mem_append.1 hm with h | h
    · exact (hkc _ h).2.1 rfl
    · rcases List.mem_cons.1 h with h | h
      · exact absurd h (by decide)
      · exact (hvc _ h).2.1 rfl
  have heq : '=' ∉ k := fun h => (hkc _ h).2.2.2.2 rfl
  have e1 : k ++ '=' :: (v ++ '&' :: rest) = (k ++ '=' :: v) ++ '&' :: rest := by simp
  have hne : (⟨k ++ '=' :: (v ++ '&' :: rest)⟩ : String) ≠ "" := by
    intro h
    have := congrArg String.data h
    simp at this
  have hne2 : (⟨k ++ '=' :: v⟩ : String) ≠ "" := by
    intro h
    have := congrArg String.data h
    simp at this
  have hu1 := QueryUnescape_plain k (fun h => (hkc _ h).2.2.1 rfl) (fun h => (hkc _ h).2.2.2.1 rfl)
  have hu2 := QueryUnescape_plain v (fun h => (hvc _ h).2.2.1 rfl) (fun h => (hvc _ h).2.2.2 rfl)
  rw [url.parseQuery]
  simp only [hne, if_false, strings.Cut, strings.Contains]
  rw [e1, cutBytes_append _ _ _ hamp]
  have hsemiB : (k ++ '=' :: v).contains ';' = false := by
    simpa using hsemi
  simp only [hsemiB, hne2, if_false, cutBytes_append _ _ _ heq, hu1, hu2, Bool.false_eq_true]

theorem parseQuery_pair_last (fuel : Nat) (m : url.Values) (err : Option GoError)
    (k v : List Char)
    (hkc : ∀ c ∈ k, c ≠ '&' ∧ c ≠ ';' ∧ c ≠ '%' ∧ c ≠ '+' ∧ c ≠ '=')
    (hvc : ∀ c ∈ v, c ≠ '&' ∧ c ≠ ';' ∧ c ≠ '%' ∧ c ≠ '+') :
    url.parseQuery (fuel + 1) m err ⟨k ++ '=' :: v⟩ = some (m.append ⟨k⟩ ⟨v⟩, err) := by
  have hamp : '&' ∉ k ++ '=' :: v := by
    intro hm
    rcases List.mem_append.1 hm with h | h
    · exact (hkc _ h).1 rfl
    · rcases List.mem_cons.1 h with h | h
      · exact absurd h (by decide)
      · exact (hvc _ h).1 rfl
  have hsemi : ';' ∉ k ++ '=' :: v := by
    intro hm
    rcases List.mem_append.1 hm with h | h
    · exact (hkc _ h).2.1 rfl
    · rcases List.mem_cons.1 h with h | h
      · exact absurd h (by decide)
      · exact (hvc _ h).2.1 rfl
  have heq : '=' ∉ k := fun h => (hkc _ h).2.2.2.2 rfl
  have hne2 : (⟨k ++ '=' :: v⟩ : String) ≠ "" := by
    intro h
    have := congrArg String.data h
    simp at this
  have hu1 := QueryUnescape_plain k (fun h => (hkc _ h).2.2.1 rfl) (fun h => (hkc _ h).2.2.2.1 rfl)
  have hu2 := QueryUnescape_plain v (fun h => (hvc _ h).2.2.1 rfl) (fun h => (hvc _ h).2.2.2 rfl)
  have hsemiB : (k ++ '=' :: v).contains ';' = false := by
    simpa using hsemi
  rw [url.parseQuery]
  simp only [hne2, if_false, strings.Cut, strings.Contains]
  rw [cutBytes_absent _ _ hamp]
  simp only [hsemiB, hne2, if_false, cutBytes_append _ _ _ heq, hu1, hu2, Bool.false_eq_true]
  exact parseQuery_empty _ _ _

/-! ### The shared HTTP helper -/

theorem canonical_contentType :
    textproto.CanonicalMIMEHeaderKey "Content-Type" = "Content-Type" := by decide

theorem canonical_xError : textproto.CanonicalMIMEHeaderKey xErrorHeader = "X-Error" := by decide

theorem doHTTP_sent (rt : Transport) (hc : http.Client) (k : String) (cx : Context)
    (endpoint : String) (body : Body) :
    (Client.doHTTP rt ⟨some hc, k⟩ (some cx) endpoint body).sent =
      [outboundRequest cx endpoint body] := by
  simp only [Client.doHTTP, json.Marshal, http.NewRequestWithContext, http.Header.Set,
    canonical_contentType, host, http.MethodPost, outboundRequest]
  split
  · rfl
  · split
    · rfl
    · split
      · rfl
      · split <;> rfl

theorem doHTTP_status (rt : Transport) (hc : http.Client) (k : String) (cx : Context)
    (endpoint : String) (body : Body) (resp : http.Response)
    (hsend : rt hc (outboundRequest cx endpoint body) = .ok resp)
    (hstatus : resp.StatusCode ≠ 200) :
    (Client.doHTTP rt ⟨some hc, k⟩ (some cx) endpoint body).ret =
      some (url.Values.empty, some (.New ("API Error: " ++ resp.Header.Get xErrorHeader))) := by
  simp only [outboundRequest] at hsend
  simp only [Client.doHTTP, json.Marshal, http.NewRequestWithContext, http.Header.Set,
    canonical_contentType, host, http.MethodPost, hsend, http.StatusOK, ne_eq, hstatus,
    not_false_eq_true, if_true, sprintf_apiError]

theorem doHTTP_values (rt : Transport) (hc : http.Client) (k : String) (cx : Context)
    (endpoint : String) (body : Body) (resp : http.Response) (respB : String)
    (values : url.Values)
    (hsend : rt hc (outboundRequest cx endpoint body) = .ok resp)
    (hstatus : resp.StatusCode = 200) (hbody : resp.Body = .ok respB)
    (hparse : url.ParseQuery respB = some (values, none)) :
    (Client.doHTTP rt ⟨some hc, k⟩ (some cx) endpoint body).ret = some (values, none) := by
  simp only [outboundRequest] at hsend
  simp only [Client.doHTTP, json.Marshal, http.NewRequestWithContext, http.Header.Set,
    canonical_contentType, host, http.MethodPost, hsend, http.StatusOK, ne_eq, hstatus,
    not_true_eq_false, if_false, hbody, hparse]

theorem plain_data {s : String} (h : plain s) :
    ∀ c ∈ s.data, c ≠ '&' ∧ c ≠ ';' ∧ c ≠ '%' ∧ c ≠ '+' := h

theorem ParseQuery_code_twice (a b : String) (ha : plain a) (hb : plain b) :
    url.ParseQuery ("code=" ++ a ++ "&code=" ++ b) =
      some ((url.Values.empty.append "code" a).append "code" b, none) := by
  have hbody : "code=" ++ a ++ "&code=" ++ b =
      ⟨"code".data ++ '=' :: (a.data ++ '&' :: ("code".data ++ '=' :: b.data))⟩ := by
    apply String.ext
    simp
  have hlen : ∃ f, ("code=" ++ a ++ "&code=" ++ b).length = f + 1 := by
    have h1 : ("code=" : String).length = 5 := rfl
    refine ⟨("code=" ++ a ++ "&code=" ++ b).length - 1, ?_⟩
    simp only [String.length_append, h1]
    omega
  obtain ⟨f, hf⟩ := hlen
  unfold url.ParseQuery
  rw [hf, hbody, parseQuery_pair_then _ _ _ _ _ _ (by decide) (plain_data ha),
    parseQuery_pair_last _ _ _ _ _ (by decide) (plain_data hb)]

theorem ParseQuery_authorize_twice (a1 u1 a2 u2 : String) (ha1 : plain a1) (hu1 : plain u1)
    (ha2 : plain a2) (hu2 : plain u2) :
    url.ParseQuery ("access_token=" ++ a1 ++ "&username=" ++ u1 ++ "&access_token=" ++ a2 ++
        "&username=" ++ u2) =
      some ((((url.Values.empty.append "access_token" a1).append "username" u1).append
        "access_token" a2).append "username" u2, none) := by
  have hbody : "access_token=" ++ a1 ++ "&username=" ++ u1 ++ "&access_token=" ++ a2 ++
        "&username=" ++ u2 =
      ⟨"access_token".data ++ '=' :: (a1.data ++ '&' :: ("username".data ++ '=' :: (u1.data ++
        '&' :: ("access_token".data ++ '=' :: (a2.data ++ '&' :: ("username".data ++
          '=' :: u2.data))))))⟩ := by
    apply String.ext
    simp
  have hlen : ∃ f, ("access_token=" ++ a1 ++ "&username=" ++ u1 ++ "&access_token=" ++ a2 ++
        "&username=" ++ u2).length = f + 3 := by
    have h1 : ("access_token=" : String).length = 13 := rfl
    refine ⟨("access_token=" ++ a1 ++ "&username=" ++ u1 ++ "&access_token=" ++ a2 ++
        "&username=" ++ u2).length - 3, ?_⟩
    simp only [String.length_append, h1]
    omega
  obtain ⟨f, hf⟩ := hlen
  unfold url.ParseQuery
  rw [hf, hbody, parseQuery_pair_then _ _ _ _ _ _ (by decide) (plain_data ha1),
    parseQuery_pair_then _ _ _ _ _ _ (by decide) (plain_data hu1),
    parseQuery_pair_then _ _ _ _ _ _ (by decide) (plain_data ha2),
    parseQuery_pair_last _ _ _ _ _ (by decide) (plain_data hu2)]

theorem GetRequestToken_ret (rt : Transport) (c : Client) (ctx : Option Context)
    (redirectUrl : String) (values : url.Values)
    (h : (c.doHTTP rt ctx endpointRequestToken
      (.requestToken ⟨c.consumerKey, redirectUrl⟩)).ret = some (values, none)) :
    (c.GetRequestToken rt ctx redirectUrl).ret =
      if values.Get "code" = "" then
        some ("", some (.New "empty request token in API response"))
      else some (values.Get "code", none) := by
  simp only [Client.GetRequestToken, h]
  split <;> rfl

theorem Authorize_ret (rt : Transport) (c : Client) (ctx : Option Context)
    (requestToken : String) (values : url.Values) (ht : requestToken ≠ "")
    (h : (c.doHTTP rt ctx endpointAuthorize
      (.authorize ⟨c.consumerKey, requestToken⟩)).ret = some (values, none)) :
    (c.Authorize rt ctx requestToken).ret =
      if values.Get "access_token" = "" then
        some (none, some (.New "empty access token in API response"))
      else some (some ⟨values.Get "access_token", values.Get "username"⟩, none) := by
  simp only [Client.Authorize, ht, if_false, h]
  split <;> rfl

theorem Get_absent (values : url.Values) (key : String) (h : values.m key = []) :
    values.Get key = "" := by
  simp [url.Values.Get, h]

/-! ### The network operations -/

/-- Claim C5.  When the transport answers the request of `GetRequestToken` with a
response of status 200 whose body parses as URL-encoded parameters,
`GetRequestToken` returns the value of `code` with no error if that value is not
empty, and the empty string with an error if `code` is absent or empty. -/
theorem GetRequestToken_spec (rt : Transport) (hc : http.Client) (k : String) (cx : Context)
    (redirectUrl : String) (resp : http.Response) (body : String) (values : url.Values)
    (hsend : rt hc (outboundRequest cx endpointRequestToken
      (.requestToken ⟨k, redirectUrl⟩)) = .ok resp)
    (hstatus : resp.StatusCode = 200) (hbody : resp.Body = .ok body)
    (hparse : url.ParseQuery body = some (values, none)) :
    (values.Get "code" ≠ "" →
      (Client.GetRequestToken rt ⟨some hc, k⟩ (some cx) redirectUrl).ret =
        some (values.Get "code", none)) ∧
    (values.m "code" = [] ∨ values.Get "code" = "" →
      (Client.GetRequestToken rt ⟨some hc, k⟩ (some cx) redirectUrl).ret =
        some ("", some (.New "empty request token in API response"))) := by
  have hret := GetRequestToken_ret rt ⟨some hc, k⟩ (some cx) redirectUrl values
    (doHTTP_values rt hc k cx _ _ resp body values hsend hstatus hbody hparse)
  refine ⟨fun h => by rw [hret, if_neg h], fun h => ?_⟩
  have h0 : values.Get "code" = "" := h.elim (Get_absent values "code") id
  rw [hret, if_pos h0]

/-- Uses of `GetRequestToken_spec`: the body `code=tok123` gives `tok123`, and a
body without the key `code` gives an error. -/
theorem GetRequestToken_spec_witness :
    (Client.GetRequestToken (answering (response 200 [] "code=tok123")) (clientOf "key")
        (some ⟨0⟩) "http://localhost:80/").ret = some ("tok123", none) ∧
    (Client.GetRequestToken (answering (response 200 [] "state=tok123")) (clientOf "key")
        (some ⟨0⟩) "http://localhost:80/").ret =
      some ("", some (.New "empty request token in API response")) :=
  ⟨(GetRequestToken_spec (answering (response 200 [] "code=tok123")) ⟨defaultTimeout⟩ "key" ⟨0⟩
      "http://localhost:80/" (response 200 [] "code=tok123") "code=tok123"
      (url.Values.empty.append "code" "tok123") rfl rfl rfl rfl).1 (by decide),
   (GetRequestToken_spec (answering (response 200 [] "state=tok123")) ⟨defaultTimeout⟩ "key" ⟨0⟩
      "http://localhost:80/" (response 200 [] "state=tok123") "state=tok123"
      (url.Values.empty.append "state" "tok123") rfl rfl rfl rfl).2 (Or.inl (by decide))⟩

/-- Claim C6.  `Authorize` with an empty request token returns an error and hands
no request to the transport, whatever the transport is.  With a non-empty token
and a response of status 200 whose body parses, it returns an error when
`access_token` is absent or empty, and otherwise the pair of the `access_token`
value and the `username` value, which is the empty string when `username` is
absent. -/
theorem Authorize_spec :
    (∀ (rt : Transport) (c : Client) (ctx : Option Context),
      c.Authorize rt ctx "" = ⟨[], some (none, some (.New "empty request token"))⟩) ∧
    (∀ (rt : Transport) (hc : http.Client) (k : String) (cx : Context) (requestToken : String)
      (resp : http.Response) (body : String) (values : url.Values),
      requestToken ≠ "" →
      rt hc (outboundRequest cx endpointAuthorize (.authorize ⟨k, requestToken⟩)) = .ok resp →
      resp.StatusCode = 200 → resp.Body = .ok body →
      url.ParseQuery body = some (values, none) →
      (values.m "access_token" = [] ∨ values.Get "access_token" = "" →
        (Client.Authorize rt ⟨some hc, k⟩ (some cx) requestToken).ret =
          some (none, some (.New "empty access token in API response"))) ∧
      (values.Get "access_token" ≠ "" →
        (Client.Authorize rt ⟨some hc, k⟩ (some cx) requestToken).ret =
          some (some ⟨values.Get "access_token", values.Get "username"⟩, none)) ∧
      (values.m "username" = [] → values.Get "username" = "")) := by
  refine ⟨fun rt c ctx => by simp [Client.Authorize], ?_⟩
  intro rt hc k cx requestToken resp body values ht hsend hstatus hbody hparse
  have hret := Authorize_ret rt ⟨some hc, k⟩ (some cx) requestToken values ht
    (doHTTP_values rt hc k cx _ _ resp body values hsend hstatus hbody hparse)
  refine ⟨fun h => ?_, fun h => by rw [hret, if_neg h], Get_absent values "username"⟩
  have h0 : values.Get "access_token" = "" := h.elim (Get_absent values "access_token") id
  rw [hret, if_pos h0]

/-- Uses of `Authorize_spec`: a body with a token and a user name, a body with a
token only, and a body with a user name only. -/
theorem Authorize_spec_witness :
    (Client.Authorize (answering (response 200 [] "access_token=tok&username=ann"))
        (clientOf "key") (some ⟨0⟩) "req").ret = some (some ⟨"tok", "ann"⟩, none) ∧
    (Client.Authorize (answering (response 200 [] "access_token=tok"))
        (clientOf "key") (some ⟨0⟩) "req").ret = some (some ⟨"tok", ""⟩, none) ∧
    (Client.Authorize (answering (response 200 [] "username=ann"))
        (clientOf "key") (some ⟨0⟩) "req").ret =
      some (none, some (.New "empty access token in API response")) ∧
    (Client.Authorize (answering (response 200 [] "access_token=tok")) ⟨none, ""⟩ none "").sent = [] :=
  ⟨(Authorize_spec.2 (answering (response 200 [] "access_token=tok&username=ann"))
      ⟨defaultTimeout⟩ "key" ⟨0⟩ "req" (response 200 [] "access_token=tok&username=ann")
      "access_token=tok&username=ann"
      ((url.Values.empty.append "access_token" "tok").append "username" "ann")
      (by decide) rfl rfl rfl rfl).2.1 (by decide),
   (Authorize_spec.2 (answering (response 200 [] "access_token=tok"))
      ⟨defaultTimeout⟩ "key" ⟨0⟩ "req" (response 200 [] "access_token=tok")
      "access_token=tok" (url.Values.empty.append "access_token" "tok")
      (by decide) rfl rfl rfl rfl).2.1 (by decide),
   (Authorize_spec.2 (answering (response 200 [] "username=ann"))
      ⟨defaultTimeout⟩ "key" ⟨0⟩ "req" (response 200 [] "username=ann")
      "username=ann" (url.Values.empty.append "username" "ann")
      (by decide) rfl rfl rfl rfl).1 (Or.inl (by decide)),
   congrArg Run.sent (Authorize_spec.1 (answering (response 200 [] "access_token=tok"))
      ⟨none, ""⟩ none)⟩

/-- Claim C7.  When the transport answers with a response whose status is not
200, `doHTTP` fails, whatever the body of the response is, with the error whose
message is `API Error: ` followed by the first value of the response's `X-Error`
header, so the message contains that text; `GetRequestToken`, and `Authorize`
with a non-empty request token, fail with the same error. -/
theorem doHTTP_status_error (rt : Transport) (hc : http.Client) (k : String) (cx : Context)
    (resp : http.Response) (hstatus : resp.StatusCode ≠ 200) :
    (∀ (endpoint : String) (body : Body),
      endpoint = endpointRequestToken ∨ endpoint = endpointAuthorize →
      rt hc (outboundRequest cx endpoint body) = .ok resp →
      (Client.doHTTP rt ⟨some hc, k⟩ (some cx) endpoint body).ret =
        some (url.Values.empty,
          some (.New ("API Error: " ++ resp.Header.Get xErrorHeader)))) ∧
    (∀ (redirectUrl : String),
      rt hc (outboundRequest cx endpointRequestToken (.requestToken ⟨k, redirectUrl⟩)) =
        .ok resp →
      (Client.GetRequestToken rt ⟨some hc, k⟩ (some cx) redirectUrl).ret =
        some ("", some (.New ("API Error: " ++ resp.Header.Get xErrorHeader)))) ∧
    (∀ (requestToken : String), requestToken ≠ "" →
      rt hc (outboundRequest cx endpointAuthorize (.authorize ⟨k, requestToken⟩)) = .ok resp →
      (Client.Authorize rt ⟨some hc, k⟩ (some cx) requestToken).ret =
        some (none, some (.New ("API Error: " ++ resp.Header.Get xErrorHeader)))) ∧
    (∀ (quote : String → String),
      (GoError.New ("API Error: " ++ resp.Header.Get xErrorHeader)).Error quote =
          "API Error: " ++ resp.Header.Get xErrorHeader ∧
      List.IsInfix (resp.Header.Get xErrorHeader).data
        ((GoError.New ("API Error: " ++ resp.Header.Get xErrorHeader)).Error quote).data) ∧
    resp.Header.Get xErrorHeader = (resp.Header.m "X-Error").headD "" := by
  refine ⟨fun endpoint body _ h => doHTTP_status rt hc k cx endpoint body resp h hstatus,
    fun redirectUrl h => ?_, fun requestToken ht h => ?_, fun quote => ⟨rfl, ?_⟩, ?_⟩
  · have hd := doHTTP_status rt hc k cx _ _ resp h hstatus
    simp only [Client.GetRequestToken, hd]
  · have hd := doHTTP_status rt hc k cx _ _ resp h hstatus
    simp only [Client.Authorize, ht, if_false, hd]
  · exact ⟨"API Error: ".data, [], by simp [GoError.Error]⟩
  · simp only [http.Header.Get, canonical_xError]
    cases resp.Header.m "X-Error" <;> rfl

/-- A use of `doHTTP_status_error`: status 403 with the header
`X-Error: bad consumer key`, and a body that would otherwise be accepted. -/
theorem doHTTP_status_error_witness :
    (Client.GetRequestToken (answering (response 403 ["bad consumer key"] "code=tok123"))
        (clientOf "key") (some ⟨0⟩) "http://localhost:80/").ret =
      some ("", some (.New "API Error: bad consumer key")) ∧
    (Client.Authorize (answering (response 403 ["bad consumer key"] "code=tok123"))
        (clientOf "key") (some ⟨0⟩) "req").ret =
      some (none, some (.New "API Error: bad consumer key")) ∧
    List.IsInfix "bad consumer key".data
      ((GoError.New "API Error: bad consumer key").Error id).data :=
  ⟨(doHTTP_status_error (answering (response 403 ["bad consumer key"] "code=tok123"))
      ⟨defaultTimeout⟩ "key" ⟨0⟩ (response 403 ["bad consumer key"] "code=tok123")
      (by decide)).2.1 "http://localhost:80/" rfl,
   (doHTTP_status_error (answering (response 403 ["bad consumer key"] "code=tok123"))
      ⟨defaultTimeout⟩ "key" ⟨0⟩ (response 403 ["bad consumer key"] "code=tok123")
      (by decide)).2.2.1 "req" (by decide) rfl,
   ((doHTTP_status_error (answering (response 403 ["bad consumer key"] "code=tok123"))
      ⟨defaultTimeout⟩ "key" ⟨0⟩ (response 403 ["bad consumer key"] "code=tok123")
      (by decide)).2.2.2.1 id).2⟩

/-- Claim C8, as the specification states it, fails: for the body `code=a&code=b`
`GetRequestToken` returns `a`, the first value, and not `b`; for a body that
repeats `access_token` and `username`, `Authorize` returns the first of each. -/
theorem last_value_wins_counterexample :
    (Client.GetRequestToken (answering (response 200 [] "code=a&code=b")) (clientOf "key")
        (some ⟨0⟩) "http://localhost:80/").ret = some ("a", none) ∧
    (Client.GetRequestToken (answering (response 200 [] "code=a&code=b")) (clientOf "key")
        (some ⟨0⟩) "http://localhost:80/").ret ≠ some ("b", none) ∧
    (Client.Authorize
        (answering (response 200 [] "access_token=a&username=u&access_token=b&username=v"))
        (clientOf "key") (some ⟨0⟩) "req").ret = some (some ⟨"a", "u"⟩, none) ∧
    (Client.Authorize
        (answering (response 200 [] "access_token=a&username=u&access_token=b&username=v"))
        (clientOf "key") (some ⟨0⟩) "req").ret ≠ some (some ⟨"b", "v"⟩, none) := by
  decide

/-- Claim C8, amended.  When a 200 response body repeats a key, the first value
wins: for a body `code=<a>&code=<b>` with `a` non-empty and `a`, `b` free of the
bytes `&`, `;`, `%`, `+`, `GetRequestToken` returns `a`; and for a body that
gives `access_token` and `username` twice, `Authorize` returns the first
`access_token` and the first `username`. -/
theorem first_value_wins :
    (∀ (rt : Transport) (hc : http.Client) (k : String) (cx : Context) (redirectUrl : String)
      (resp : http.Response) (a b : String),
      a ≠ "" → plain a → plain b →
      rt hc (outboundRequest cx endpointRequestToken (.requestToken ⟨k, redirectUrl⟩)) =
        .ok resp →
      resp.StatusCode = 200 → resp.Body = .ok ("code=" ++ a ++ "&code=" ++ b) →
      (Client.GetRequestToken rt ⟨some hc, k⟩ (some cx) redirectUrl).ret = some (a, none)) ∧
    (∀ (rt : Transport) (hc : http.Client) (k : String) (cx : Context) (requestToken : String)
      (resp : http.Response) (a1 u1 a2 u2 : String),
      requestToken ≠ "" → a1 ≠ "" → plain a1 → plain u1 → plain a2 → plain u2 →
      rt hc (outboundRequest cx endpointAuthorize (.authorize ⟨k, requestToken⟩)) = .ok resp →
      resp.StatusCode = 200 →
      resp.Body = .ok ("access_token=" ++ a1 ++ "&username=" ++ u1 ++ "&access_token=" ++ a2 ++
        "&username=" ++ u2) →
      (Client.Authorize rt ⟨some hc, k⟩ (some cx) requestToken).ret =
        some (some ⟨a1, u1⟩, none)) := by
  constructor
  · intro rt hc k cx redirectUrl resp a b ha hpa hpb hsend hstatus hbody
    have hret := GetRequestToken_ret rt ⟨some hc, k⟩ (some cx) redirectUrl _
      (doHTTP_values rt hc k cx _ _ resp _ _ hsend hstatus hbody (ParseQuery_code_twice a b hpa hpb))
    have hget : ((url.Values.empty.append "code" a).append "code" b).Get "code" = a := by
      simp [url.Values.Get, url.Values.append, url.Values.empty]
    rw [hret, hget, if_neg ha]
  · intro rt hc k cx requestToken resp a1 u1 a2 u2 ht ha hpa1 hpu1 hpa2 hpu2 hsend hstatus hbody
    have hret := Authorize_ret rt ⟨some hc, k⟩ (some cx) requestToken _ ht
      (doHTTP_values rt hc k cx _ _ resp _ _ hsend hstatus hbody
        (ParseQuery_authorize_twice a1 u1 a2 u2 hpa1 hpu1 hpa2 hpu2))
    have hget1 : ((((url.Values.empty.append "access_token" a1).append "username" u1).append
        "access_token" a2).append "username" u2).Get "access_token" = a1 := by
      simp [url.Values.Get, url.Values.append, url.Values.empty]
    have hget2 : ((((url.Values.empty.append "access_token" a1).append "username" u1).append
        "access_token" a2).append "username" u2).Get "username" = u1 := by
      simp [url.Values.Get, url.Values.append, url.Values.empty]
    rw [hret, hget1, hget2, if_neg ha]

/-- Uses of `first_value_wins`: the bodies `code=a&code=b` and
`access_token=a&username=u&access_token=b&username=v`. -/
theorem first_value_wins_witness :
    (Client.GetRequestToken (answering (response 200 [] "code=a&code=b")) (clientOf "key")
        (some ⟨0⟩) "http://localhost:80/").ret = some ("a", none) ∧
    (Client.Authorize
        (answering (response 200 [] "access_token=a&username=u&access_token=b&username=v"))
        (clientOf "key") (some ⟨0⟩) "req").ret = some (some ⟨"a", "u"⟩, none) :=
  ⟨first_value_wins.1 (answering (response 200 [] "code=a&code=b")) ⟨defaultTimeout⟩ "key" ⟨0⟩
      "http://localhost:80/" (response 200 [] "code=a&code=b") "a" "b"
      (by decide) (by decide) (by decide) rfl rfl rfl,
   first_value_wins.2
      (answering (response 200 [] "access_token=a&username=u&access_token=b&username=v"))
      ⟨defaultTimeout⟩ "key" ⟨0⟩ "req"
      (response 200 [] "access_token=a&username=u&access_token=b&username=v") "a" "u" "b" "v"
      (by decide) (by decide) (by decide) (by decide) (by decide) (by decide) rfl rfl rfl⟩

/-- Claim C9.  Every outbound request body carries the client's consumer key.
The requests `GetRequestToken` sends are those of the shared helper called with
the body of `consumer_key = c.consumerKey` and `redirect_uri` the caller's
redirect URL, empty or not; those of `Authorize`, for a non-empty token, are those
of the helper called with `consumer_key = c.consumerKey` and `code` the token;
the helper puts the body it is given in every request it sends, and with a
transport and a context it sends exactly one; `generate(c.consumerKey)` has
`consumer_key = c.consumerKey`; and a client that `NewClient(k)` returns holds
the key `k`, which is not empty. -/
theorem consumerKey_in_every_body :
    (∀ (rt : Transport) (c : Client) (ctx : Option Context) (redirectUrl : String),
      (c.GetRequestToken rt ctx redirectUrl).sent =
        (c.doHTTP rt ctx endpointRequestToken
          (.requestToken { ConsumerKey := c.consumerKey, RedirectURI := redirectUrl })).sent) ∧
    (∀ (rt : Transport) (c : Client) (ctx : Option Context) (requestToken : String),
      requestToken ≠ "" →
      (c.Authorize rt ctx requestToken).sent =
        (c.doHTTP rt ctx endpointAuthorize
          (.authorize { ConsumerKey := c.consumerKey, Code := requestToken })).sent) ∧
    (∀ (rt : Transport) (c : Client) (ctx : Option Context) (endpoint : String) (body : Body),
      endpoint = endpointRequestToken ∨ endpoint = endpointAuthorize →
      ∀ req ∈ (c.doHTTP rt ctx endpoint body).sent, req.Body = body) ∧
    (∀ (rt : Transport) (hc : http.Client) (k : String) (cx : Context) (redirectUrl : String),
      (Client.GetRequestToken rt ⟨some hc, k⟩ (some cx) redirectUrl).sent =
        [outboundRequest cx endpointRequestToken
          (.requestToken { ConsumerKey := k, RedirectURI := redirectUrl })]) ∧
    (∀ (rt : Transport) (hc : http.Client) (k : String) (cx : Context),
      (Client.GetRequestToken rt ⟨some hc, k⟩ (some cx) "").sent =
        [outboundRequest cx endpointRequestToken
          (.requestToken { ConsumerKey := k, RedirectURI := "" })]) ∧
    (∀ (rt : Transport) (hc : http.Client) (k : String) (cx : Context) (requestToken : String),
      requestToken ≠ "" →
      (Client.Authorize rt ⟨some hc, k⟩ (some cx) requestToken).sent =
        [outboundRequest cx endpointAuthorize
          (.authorize { ConsumerKey := k, Code := requestToken })]) ∧
    (∀ (c : Client) (i : AddInput), (i.generate c.consumerKey).ConsumerKey = c.consumerKey) ∧
    (∀ (k : String) (c : Client) (e : Option GoError),
      NewClient k = (some c, e) → c.consumerKey = k ∧ k ≠ "") ∧
    (∀ (k : String), k ≠ "" → NewClient k = (some (clientOf k), none)) := by
  have hG : ∀ (rt : Transport) (c : Client) (ctx : Option Context) (redirectUrl : String),
      (c.GetRequestToken rt ctx redirectUrl).sent =
        (c.doHTTP rt ctx endpointRequestToken
          (.requestToken { ConsumerKey := c.consumerKey, RedirectURI := redirectUrl })).sent := by
    intro rt c ctx redirectUrl
    simp only [Client.GetRequestToken]
    split
    · rfl
    · rfl
    · split <;> rfl
  have hA : ∀ (rt : Transport) (c : Client) (ctx : Option Context) (requestToken : String),
      requestToken ≠ "" →
      (c.Authorize rt ctx requestToken).sent =
        (c.doHTTP rt ctx endpointAuthorize
          (.authorize { ConsumerKey := c.consumerKey, Code := requestToken })).sent := by
    intro rt c ctx requestToken ht
    simp only [Client.Authorize, ht, if_false]
    split
    · rfl
    · rfl
    · split <;> rfl
  refine ⟨hG, hA, ?_, ?_, ?_, ?_, fun _ _ => rfl, ?_, ?_⟩
  · intro rt c ctx endpoint body _ req hreq
    cases hctx : ctx with
    | none =>
      simp [Client.doHTTP, json.Marshal, http.NewRequestWithContext, hctx] at hreq
    | some cx =>
      cases hcl : c.client with
      | none =>
        simp [Client.doHTTP, json.Marshal, http.NewRequestWithContext, hctx, hcl] at hreq
      | some hc =>
        have hs := doHTTP_sent rt hc c.consumerKey cx endpoint body
        have hc' : c = ⟨some hc, c.consumerKey⟩ := by
          cases c
          simp_all
        rw [hctx, hc', hs] at hreq
        rw [List.mem_singleton.1 hreq]
        rfl
  · intro rt hc k cx redirectUrl
    rw [hG, doHTTP_sent]
  · intro rt hc k cx
    rw [hG, doHTTP_sent]
  · intro rt hc k cx requestToken ht
    rw [hA _ _ _ _ ht, doHTTP_sent]
  · intro k c e h
    unfold NewClient at h
    by_cases hk : k = ""
    · simp [hk] at h
    · simp only [hk, if_false, Prod.mk.injEq, Option.some.injEq] at h
      exact ⟨by rw [← h.1], hk⟩
  · intro k hk
    simp [NewClient, hk, clientOf]

/-- Uses of `consumerKey_in_every_body`: the request sent for an empty redirect
URL, the request sent by `Authorize`, and the client built for the key `key`. -/
theorem consumerKey_in_every_body_witness :
    (Client.GetRequestToken (answering (response 200 [] "code=tok123")) (clientOf "key")
        (some ⟨0⟩) "").sent =
      [outboundRequest ⟨0⟩ "/oauth/request" (.requestToken ⟨"key", ""⟩)] ∧
    (Client.Authorize (answering (response 200 [] "access_token=tok")) (clientOf "key")
        (some ⟨0⟩) "req").sent =
      [outboundRequest ⟨0⟩ "/oauth/authorize" (.authorize ⟨"key", "req"⟩)] ∧
    NewClient "key" = (some (clientOf "key"), none) :=
  ⟨consumerKey_in_every_body.2.2.2.2.1 (answering (response 200 [] "code=tok123"))
      ⟨defaultTimeout⟩ "key" ⟨0⟩,
   consumerKey_in_every_body.2.2.2.2.2.1 (answering (response 200 [] "access_token=tok"))
      ⟨defaultTimeout⟩ "key" ⟨0⟩ "req" (by decide),
   consumerKey_in_every_body.2.2.2.2.2.2.2.2 "key" (by decide)⟩

end GoPocketSdk
